import Mathlib

/-!
Verification of the GasGuard static analyzer against its specification.

The repository files under verification:
  * `libs/engine/src/scanner.rs` — language detection and the scanning
    entry points (`Language`, `ContractScanner`, `ScanResult`);
  * `packages/rules/src/soroban/mod.rs` — the Soroban contract data model
    (`SorobanContract`, `SorobanStruct`, `SorobanField`, `SorobanImpl`,
    `SorobanFunction`, `SorobanParam`) and the error type
    (`SorobanParseError`).

The Soroban structural parser (`parser.rs`), the analyzer (`analyzer.rs`)
and the rule engines (`rule_engine.rs`, `unused_state_variables.rs`) are
declared by `mod.rs`/`lib.rs` and exercised by the repository's tests but
their sources are not in the repository snapshot; those components are
modelled from the specification's words (sections 4.1, 4.2 and 8), each
such definition carrying a doc comment starting `Modelled from the spec:`.

Strings are modelled as `String`/`List Char`; file reading (an IO effect)
is modelled by passing the read's outcome (`Except String String`) as an
argument; the wall-clock timestamp of `ScanResult` (`scan_time`) is
outside the embedding and omitted.
-/

set_option maxRecDepth 40000

namespace GasGuard

/-! ## Character and string utilities -/

/-- Whitespace, as the parser's line trimming sees it. -/
def isWs (c : Char) : Bool := c = ' ' || c = '\t' || c = '\r' || c = '\n'

/-- A character that can be part of a Rust identifier. -/
def isIdentChar (c : Char) : Bool := c.isAlpha || c.isDigit || c = '_'

/-- Whether the first list is a prefix of the second. -/
def isPrefixOfChars : List Char → List Char → Bool
  | [], _ => true
  | _ :: _, [] => false
  | a :: as, b :: bs => a = b && isPrefixOfChars as bs

/-- Whether `needle` occurs as a contiguous sublist of `hay`. -/
def containsChars (needle : List Char) : List Char → Bool
  | [] => isPrefixOfChars needle []
  | c :: rest => isPrefixOfChars needle (c :: rest) || containsChars needle rest

/-- `content.contains(pat)` of Rust, on `String`. -/
def containsStr (hay needle : String) : Bool := containsChars needle.toList hay.toList

/-- Drop leading whitespace. -/
def trimLeftChars (l : List Char) : List Char := l.dropWhile isWs

/-- Trim whitespace from both ends, as Rust `str::trim`. -/
def trimChars (l : List Char) : List Char :=
  ((l.dropWhile isWs).reverse.dropWhile isWs).reverse

/-- Split a character list at newline characters (accumulator-based). -/
def splitLinesAux (acc : List Char) : List Char → List (List Char)
  | [] => [acc.reverse]
  | c :: cs => if c = '\n' then acc.reverse :: splitLinesAux [] cs else splitLinesAux (c :: acc) cs

/-- The lines of a source string, as Rust `str::lines` (one entry per line). -/
def strLines (s : String) : List (List Char) := splitLinesAux [] s.toList

/-- The lines of a source string paired with 1-based line numbers. -/
def numberedLines (s : String) : List (Nat × List Char) :=
  (strLines s).enum.map (fun p => (p.1 + 1, p.2))

/-- Join line strings with newlines (used to build test inputs). -/
def nlJoin (ls : List String) : String := String.intercalate "\n" ls

/-! ## Bracket-depth accounting (spec section 4.1: parentheses, square and
angle brackets tracked together) -/

/-- Depth contribution of one character: `(`, `[`, `<` open, `)`, `]`, `>` close. -/
def bracketDelta (c : Char) : Int :=
  if c = '(' || c = '[' || c = '<' then 1
  else if c = ')' || c = ']' || c = '>' then -1
  else 0

/-- Net bracket depth of a character list. -/
def bracketDeltaList (l : List Char) : Int := (l.map bracketDelta).sum

/-- Depth contribution of one character, braces only. -/
def braceDelta (c : Char) : Int :=
  if c = '{' then 1 else if c = '}' then -1 else 0

/-- Net brace depth of a character list. -/
def braceDeltaList (l : List Char) : Int := (l.map braceDelta).sum

/-! ## split_preserving_parentheses (spec section 4.1)

Modelled from the spec: `parser.rs` is not in the repository snapshot.
"`split_preserving_parentheses(text, delimiter) -> sequence of text`:
splits only where bracket depth is zero; never produces a split point
inside a nested group."  The repository's test expects the parts trimmed
(`"param1: u64, param2: (u32, String)"` split at `,` yields
`"param1: u64"` and `"param2: (u32, String)"`). -/

/-- Core splitter: `d` is the bracket depth of the consumed prefix, `acc` the
current part reversed; a split happens only when the delimiter is met at
depth zero. -/
def splitPreservingAux (delim : Char) : List Char → Int → List Char → List (List Char)
  | [], _, acc => [acc.reverse]
  | c :: cs, d, acc =>
    if c = delim && d = 0 then acc.reverse :: splitPreservingAux delim cs 0 []
    else splitPreservingAux delim cs (d + bracketDelta c) (c :: acc)

/-- Modelled from the spec: splits `text` at `delim` only at bracket depth
zero, trimming each part (`parser.rs` missing from the snapshot). -/
def SorobanParser.split_preserving_parentheses (text : String) (delim : Char) : List String :=
  (splitPreservingAux delim text.toList 0 []).map (fun part => String.mk (trimChars part))

/-- Join parts with a separating character (left inverse of the core splitter). -/
def joinWith (sep : Char) : List (List Char) → List Char
  | [] => []
  | [p] => p
  | p :: q :: rest => p ++ sep :: joinWith sep (q :: rest)

/-! ## extract_between_parentheses (spec section 4.1)

Modelled from the spec: "returns the substring between the first top-level
`(` and its balanced `)`, honoring nested bracket kinds; returns none if no
opening parenthesis exists or brackets never balance." -/

/-- The text after the first `(`, if any. -/
def findOpenParen : List Char → Option (List Char)
  | [] => none
  | c :: cs => if c = '(' then some cs else findOpenParen cs

/-- Scan for the `)` balancing the already-seen `(`: `d` is the current
depth (all bracket kinds tracked together), `acc` the collected text
reversed.  End of input, or a close of the wrong kind, means the brackets
never balance. -/
def extractAux : Int → List Char → List Char → Option (List Char)
  | _, _, [] => none
  | d, acc, c :: cs =>
    let d2 := d + bracketDelta c
    if d2 ≤ 0 then (if c = ')' then some acc.reverse else none)
    else extractAux d2 (c :: acc) cs

/-- Character-list core of `extract_between_parentheses`. -/
def extractBetweenChars (text : List Char) : Option (List Char) :=
  match findOpenParen text with
  | none => none
  | some rest => extractAux 1 [] rest

/-- Modelled from the spec: the substring between the first `(` and its
balanced `)` (`parser.rs` missing from the snapshot). -/
def SorobanParser.extract_between_parentheses (text : String) : Option String :=
  (extractBetweenChars text.toList).map String.mk

/-! ## The contract data model (from `packages/rules/src/soroban/mod.rs`) -/

/-- Severity of a violation (`ViolationSeverity` of the rules crate; the
declaring file `rule_engine.rs` is not in the snapshot, the variants are
those the repository's tests use: Error, Warning and an informational
level). -/
inductive ViolationSeverity where
  | Error : ViolationSeverity
  | Warning : ViolationSeverity
  | Info : ViolationSeverity
deriving DecidableEq, Repr

/-- A located finding (`RuleViolation`; field names as the integration
tests construct them). -/
structure RuleViolation where
  rule_name : String
  description : String
  severity : ViolationSeverity
  line_number : Nat
  column_number : Nat
  variable_name : String
  suggestion : String
deriving DecidableEq, Repr

/-- Visibility modifiers for struct fields (`FieldVisibility`). -/
inductive FieldVisibility where
  | Public : FieldVisibility
  | Private : FieldVisibility
deriving DecidableEq, Repr

/-- A field in a Soroban struct (`SorobanField`). -/
structure SorobanField where
  name : String
  type_name : String
  visibility : FieldVisibility
  line_number : Nat
deriving DecidableEq, Repr

/-- A struct definition marked `#[contracttype]` (`SorobanStruct`). -/
structure SorobanStruct where
  name : String
  fields : List SorobanField
  line_number : Nat
  raw_definition : String
deriving DecidableEq, Repr

/-- A function parameter (`SorobanParam`). -/
structure SorobanParam where
  name : String
  type_name : String
deriving DecidableEq, Repr

/-- Function visibility modifiers (`FunctionVisibility`). -/
inductive FunctionVisibility where
  | Public : FunctionVisibility
  | Private : FunctionVisibility
deriving DecidableEq, Repr

/-- A function in a Soroban contract (`SorobanFunction`). -/
structure SorobanFunction where
  name : String
  params : List SorobanParam
  return_type : Option String
  visibility : FunctionVisibility
  is_constructor : Bool
  line_number : Nat
  raw_definition : String
deriving DecidableEq, Repr

/-- An implementation block marked `#[contractimpl]` (`SorobanImpl`). -/
structure SorobanImpl where
  target : String
  functions : List SorobanFunction
  line_number : Nat
  raw_definition : String
deriving DecidableEq, Repr

/-- A Soroban contract (`SorobanContract`). -/
structure SorobanContract where
  name : String
  contract_types : List SorobanStruct
  implementations : List SorobanImpl
  source : String
  file_path : String
deriving DecidableEq, Repr

/-- Error type for Soroban parsing (`SorobanParseError`; the payload of
`IoError` is modelled as the error's message text). -/
inductive SorobanParseError where
  | ParseError : String → SorobanParseError
  | MissingMacro : String → SorobanParseError
  | InvalidStructure : String → SorobanParseError
  | IoError : String → SorobanParseError
deriving DecidableEq, Repr

/-- The display text of a parse error (from the `thiserror` format strings
in `mod.rs`). -/
def SorobanParseError.display : SorobanParseError → String
  | .ParseError m => "Failed to parse Soroban contract: " ++ m
  | .MissingMacro m => "Missing required Soroban macro: " ++ m
  | .InvalidStructure m => "Invalid contract structure: " ++ m
  | .IoError m => "IO error: " ++ m

/-! ## The structural parser (spec section 4.1)

Modelled from the spec: `parser.rs` is not in the repository snapshot.
"A single forward scan over lines maintaining a brace-depth counter and a
short lookbehind buffer (skipping blank lines ...) to recognize the
annotation marker that must immediately precede a type or implementation
declaration."  Type extraction collects field lines until the closing
brace at the same depth, stripping a leading visibility keyword and
splitting at the first colon; implementation extraction records the
target name and scans for function signatures, parameters being produced
by the two bracket-depth-aware helpers above.  An unterminated block at
end of input is a structural failure; a source with no marker-preceded
type declaration fails with `MissingMacro` before a contract is built
(spec sections 3 and 8). -/

/-- Whether a line is the `#[contracttype]` annotation marker. -/
def isTypeMarkerLine (l : List Char) : Bool :=
  isPrefixOfChars "#[contracttype]".toList (trimChars l)

/-- Whether a line is the `#[contractimpl]` annotation marker. -/
def isImplMarkerLine (l : List Char) : Bool :=
  isPrefixOfChars "#[contractimpl]".toList (trimChars l)

/-- The struct name of a type-declaration header line (`pub struct Name ...`
or `struct Name ...`), if the line is one. -/
def structHeaderName (l : List Char) : Option (List Char) :=
  let t := trimChars l
  let t2 := if isPrefixOfChars "pub ".toList t then trimLeftChars (t.drop 4) else t
  if isPrefixOfChars "struct ".toList t2 then
    some (List.takeWhile isIdentChar (trimLeftChars (t2.drop 7)))
  else none

/-- The target name of an implementation header line (`impl Name ...`), if
the line is one. -/
def implHeaderTarget (l : List Char) : Option (List Char) :=
  let t := trimChars l
  if isPrefixOfChars "impl ".toList t then
    some (List.takeWhile isIdentChar (trimLeftChars (t.drop 5)))
  else none

/-- Split at the first colon, as the field/parameter grammar prescribes. -/
def splitAtFirstColon : List Char → Option (List Char × List Char)
  | [] => none
  | c :: cs =>
    if c = ':' then some ([], cs)
    else (splitAtFirstColon cs).map (fun p => (c :: p.1, p.2))

/-- Drop one trailing comma (the field separator), if present. -/
def stripTrailingComma (l : List Char) : List Char :=
  match l.reverse with
  | c :: rest => if c = ',' then rest.reverse else l
  | [] => l

/-- Modelled from the spec: parse one candidate field line — strip a leading
visibility keyword (its absence implies Private), split at the first colon
into name and raw type text, trim a trailing separator; a line not of this
shape is skipped (`none`). -/
def SorobanParser.parse_field (l : List Char) (line_number : Nat) : Option SorobanField :=
  let t := trimChars l
  if t.isEmpty || isPrefixOfChars "//".toList t then none
  else
    let vis := if isPrefixOfChars "pub ".toList t then FieldVisibility.Public
               else FieldVisibility.Private
    let rest := if isPrefixOfChars "pub ".toList t then trimLeftChars (t.drop 4) else t
    match splitAtFirstColon rest with
    | none => none
    | some p =>
      let nm := trimChars p.1
      let ty := trimChars (stripTrailingComma (trimChars p.2))
      if nm.isEmpty || !nm.all isIdentChar then none
      else some ⟨String.mk nm, String.mk ty, vis, line_number⟩

/-- Whether a line begins a function signature (`pub fn ` or `fn `). -/
def isFnLine (l : List Char) : Bool :=
  let t := trimChars l
  isPrefixOfChars "pub fn ".toList t || isPrefixOfChars "fn ".toList t

/-- The function name of a signature line. -/
def fnName (l : List Char) : List Char :=
  let t := trimChars l
  let t2 := if isPrefixOfChars "pub fn ".toList t then t.drop 7 else t.drop 3
  List.takeWhile isIdentChar (trimLeftChars t2)

/-- The raw text after the `->` arrow token, if any. -/
def afterArrow : List Char → Option (List Char)
  | [] => none
  | c :: cs =>
    if c = '-' && isPrefixOfChars ['>'] cs then some (cs.drop 1)
    else afterArrow cs

/-- Parse one parameter entry (`name: Type`); an entry without a colon
(such as `&self`) is skipped. -/
def parseParamChars (l : List Char) : Option SorobanParam :=
  match splitAtFirstColon (trimChars l) with
  | none => none
  | some p =>
    let nm := trimChars p.1
    if nm.isEmpty || !nm.all isIdentChar then none
    else some ⟨String.mk nm, String.mk (trimChars p.2)⟩

/-- Build a `SorobanFunction` from the lines of its span. -/
def mkFunction (startLine : Nat) (lns : List (List Char)) : SorobanFunction :=
  let raw := List.intercalate ['\n'] lns
  let first := (lns.headD [])
  let sigPart := List.takeWhile (fun c => c ≠ '{') raw
  let params :=
    match extractBetweenChars sigPart with
    | some inner => (splitPreservingAux ',' inner 0 []).filterMap parseParamChars
    | none => []
  let ret := (afterArrow sigPart).map (fun r => String.mk (trimChars r))
  let nm := fnName first
  { name := String.mk nm
    params := params
    return_type := ret
    visibility := if isPrefixOfChars "pub ".toList (trimChars first) then
        FunctionVisibility.Public else FunctionVisibility.Private
    is_constructor := nm = "new".toList
    line_number := startLine
    raw_definition := String.mk raw }

/-- State of the function-span scan over an implementation body: the
completed spans (reversed) and, when inside a function, its start line,
running brace depth and collected lines (reversed). -/
structure FnScanState where
  doneRev : List (Nat × List (List Char))
  current : Option (Nat × Int × List (List Char))

/-- One step of the function-span scan: a `fn` signature line opens a span
that runs to the line where its brace depth returns to zero. -/
def fnStep (st : FnScanState) (nl : Nat × List Char) : FnScanState :=
  match st.current with
  | none =>
    if isFnLine nl.2 then
      let d := braceDeltaList nl.2
      if d ≤ 0 then { st with doneRev := (nl.1, [nl.2]) :: st.doneRev }
      else { st with current := some (nl.1, d, [nl.2]) }
    else st
  | some cur =>
    let d2 := cur.2.1 + braceDeltaList nl.2
    if d2 ≤ 0 then
      { doneRev := (cur.1, nl.2 :: cur.2.2) :: st.doneRev, current := none }
    else { st with current := some (cur.1, d2, nl.2 :: cur.2.2) }

/-- Modelled from the spec: split an implementation block's body lines into
the functions they declare (a span whose brace block never closes before
the body ends is dropped, tolerantly). -/
def splitFunctions (ls : List (Nat × List Char)) : List SorobanFunction :=
  ((ls.foldl fnStep ⟨[], none⟩).doneRev).reverse.map
    (fun p => mkFunction p.1 p.2.reverse)

/-- The mode of the single forward scan: at top level, just after a marker
(the lookbehind), or inside a marker-opened block tracking its brace depth. -/
inductive ScanMode where
  | top : ScanMode
  | afterTypeMarker : ScanMode
  | afterImplMarker : ScanMode
  | inStruct : List Char → Nat → Int → List SorobanField → List (List Char) → ScanMode
  | inImpl : List Char → Nat → Int → List (Nat × List Char) → List (List Char) → ScanMode
deriving Repr

/-- The scan's running state: current mode and the completed declarations
(kept reversed, discovery order restored at the end). -/
structure ScanState where
  mode : ScanMode
  structsRev : List SorobanStruct
  implsRev : List SorobanImpl

/-- Top-level dispatch: an annotation marker switches to the corresponding
lookbehind mode, any other line is skipped (tolerant parsing). -/
def topDispatch (st : ScanState) (l : List Char) : ScanState :=
  if isTypeMarkerLine l then { st with mode := ScanMode.afterTypeMarker }
  else if isImplMarkerLine l then { st with mode := ScanMode.afterImplMarker }
  else { st with mode := ScanMode.top }

/-- One step of the forward scan (spec section 4.1's algorithm). -/
def scanStep (st : ScanState) (nl : Nat × List Char) : ScanState :=
  match st.mode with
  | ScanMode.top => topDispatch st nl.2
  | ScanMode.afterTypeMarker =>
    if (trimChars nl.2).isEmpty then st
    else
      match structHeaderName nl.2 with
      | some nm =>
        let d := braceDeltaList nl.2
        if d ≤ 0 then
          { mode := ScanMode.top
            structsRev := ⟨String.mk nm, [], nl.1, String.mk nl.2⟩ :: st.structsRev
            implsRev := st.implsRev }
        else { st with mode := ScanMode.inStruct nm nl.1 d [] [nl.2] }
      | none => topDispatch st nl.2
  | ScanMode.afterImplMarker =>
    if (trimChars nl.2).isEmpty then st
    else
      match implHeaderTarget nl.2 with
      | some tg =>
        let d := braceDeltaList nl.2
        if d ≤ 0 then
          { mode := ScanMode.top
            structsRev := st.structsRev
            implsRev := ⟨String.mk tg, [], nl.1, String.mk nl.2⟩ :: st.implsRev }
        else { st with mode := ScanMode.inImpl tg nl.1 d [] [nl.2] }
      | none => topDispatch st nl.2
  | ScanMode.inStruct nm sl d fieldsRev rawRev =>
    let d2 := d + braceDeltaList nl.2
    if d2 ≤ 0 then
      { mode := ScanMode.top
        structsRev :=
          ⟨String.mk nm, fieldsRev.reverse, sl,
            String.mk (List.intercalate ['\n'] (nl.2 :: rawRev).reverse)⟩ :: st.structsRev
        implsRev := st.implsRev }
    else
      match SorobanParser.parse_field nl.2 nl.1 with
      | some f => { st with mode := ScanMode.inStruct nm sl d2 (f :: fieldsRev) (nl.2 :: rawRev) }
      | none => { st with mode := ScanMode.inStruct nm sl d2 fieldsRev (nl.2 :: rawRev) }
  | ScanMode.inImpl tg sl d bodyRev rawRev =>
    let d2 := d + braceDeltaList nl.2
    if d2 ≤ 0 then
      { mode := ScanMode.top
        structsRev := st.structsRev
        implsRev :=
          ⟨String.mk tg, splitFunctions (nl :: bodyRev).reverse, sl,
            String.mk (List.intercalate ['\n'] (nl.2 :: rawRev).reverse)⟩ :: st.implsRev }
    else { st with mode := ScanMode.inImpl tg sl d2 (nl :: bodyRev) (nl.2 :: rawRev) }

/-- The forward scan over all numbered lines. -/
def runScan (ls : List (Nat × List Char)) : ScanState :=
  ls.foldl scanStep ⟨ScanMode.top, [], []⟩

/-- The `MalformedStructure` reason used when a block never balances. -/
def unterminatedMsg : String := "unterminated block: end of input before closing brace"

/-- Whether the scan ends inside a still-open marker-opened block. -/
def scanIsUnterminated (ls : List (Nat × List Char)) : Bool :=
  match (runScan ls).mode with
  | ScanMode.inStruct _ _ _ _ _ => true
  | ScanMode.inImpl _ _ _ _ _ => true
  | _ => false

/-- Modelled from the spec: the structural scan's result — the declarations
in discovery order, or `InvalidStructure` when an opened block never
balances before end of input (spec section 4.1's `MalformedStructure`). -/
def structScan (ls : List (Nat × List Char)) :
    Except SorobanParseError (List SorobanStruct × List SorobanImpl) :=
  let fin := runScan ls
  match fin.mode with
  | ScanMode.inStruct _ _ _ _ _ => Except.error (SorobanParseError.InvalidStructure unterminatedMsg)
  | ScanMode.inImpl _ _ _ _ _ => Except.error (SorobanParseError.InvalidStructure unterminatedMsg)
  | _ => Except.ok (fin.structsRev.reverse, fin.implsRev.reverse)

/-- Whether an annotation marker line is followed (blank lines skipped) by a
type-declaration header — the condition under which a contract name can be
determined (spec sections 3, 4.1 and 8). -/
def markedHeaderNext : List (List Char) → Bool
  | [] => false
  | l :: rest =>
    if (trimChars l).isEmpty then markedHeaderNext rest
    else (structHeaderName l).isSome

/-- Whether the source holds an annotation-marked type declaration. -/
def hasMarkedTypeDecl : List (List Char) → Bool
  | [] => false
  | l :: rest =>
    if isTypeMarkerLine l then markedHeaderNext rest || hasMarkedTypeDecl rest
    else hasMarkedTypeDecl rest

/-- The `MissingMacro` message (the repository's test requires it to
identify the undeterminable contract name). -/
def missingMacroMsg : String :=
  "could not determine contract name: no contracttype-marked type declaration found"

/-- Modelled from the spec: `parse(source, label) -> Contract | ParseError`.
A source with no annotation-marked type declaration fails with
`MissingMacro` before any contract is constructed; the contract's name is
the first marked type declaration's name; an unterminated block surfaces
as `InvalidStructure` (spec section 4.1). -/
def SorobanParser.parse_contract (source file_path : String) :
    Except SorobanParseError SorobanContract :=
  if hasMarkedTypeDecl (strLines source) then
    match structScan (numberedLines source) with
    | Except.error e => Except.error e
    | Except.ok p =>
      match p.1 with
      | [] => Except.error (SorobanParseError.MissingMacro missingMacroMsg)
      | t :: _ => Except.ok ⟨t.name, p.1, p.2, source, file_path⟩
  else Except.error (SorobanParseError.MissingMacro missingMacroMsg)

/-! ## The unused-field rule (spec sections 4.2 and 8)

Modelled from the spec: `unused_state_variables.rs` and the Soroban
analyzer/rule engine are not in the repository snapshot.  "Unused-field:
for each declared field, search the raw text of every implementation
block's functions for a probable access of that field's name (qualified by
an instance-reference token, or appearing as a shorthand initializer key);
zero probable uses across the whole contract ⇒ one Warning violation at
the field's declaration line naming it." -/

/-- Whether the reversed text before an occurrence ends at an identifier
boundary. -/
def boundaryBefore (rev : List Char) : Bool :=
  match rev with
  | [] => true
  | c :: _ => !isIdentChar c

/-- Whether the text after an occurrence starts at an identifier boundary. -/
def boundaryAfter (rest : List Char) : Bool :=
  match rest with
  | [] => true
  | c :: _ => !isIdentChar c

/-- Whether the occurrence is qualified by the instance-reference token:
the preceding text ends in `self.`. -/
def selfQualified (rev : List Char) : Bool :=
  isPrefixOfChars (List.reverse "self.".toList) rev

/-- Whether the occurrence stands where a shorthand initializer key does:
after a `{` or `,` and before a `,` or `}` (whitespace skipped), with no
`: value` of its own. -/
def shorthandBefore (rev : List Char) : Bool :=
  match trimLeftChars rev with
  | [] => false
  | c :: _ => c = '{' || c = ','

/-- The closing side of the shorthand-initializer-key context. -/
def shorthandAfter (rest : List Char) : Bool :=
  match trimLeftChars rest with
  | [] => false
  | c :: _ => c = ',' || c = '}'

/-- Scan `rest` for a probable access of `name`: an identifier-boundary
occurrence that is `self.`-qualified or stands as a shorthand initializer
key; `rev` is the already-consumed text, reversed. -/
def probableAccessAux (name : List Char) : List Char → List Char → Bool
  | _, [] => false
  | rev, c :: cs =>
    (boundaryBefore rev && isPrefixOfChars name (c :: cs) &&
      boundaryAfter (List.drop name.length (c :: cs)) &&
      (selfQualified rev ||
        (shorthandBefore rev && shorthandAfter (List.drop name.length (c :: cs)))))
    || probableAccessAux name (c :: rev) cs

/-- Modelled from the spec: whether `body` holds a probable access of the
field named `name`. -/
def probableAccess (body name : String) : Bool :=
  probableAccessAux name.toList [] body.toList

/-- Modelled from the spec: whether any function of any implementation
block of the contract probably accesses the field named `name`
(`find_variable_usage` of the missing `rule_engine.rs`). -/
def fieldUsed (c : SorobanContract) (name : String) : Bool :=
  c.implementations.any (fun im => im.functions.any (fun f => probableAccess f.raw_definition name))

/-- Modelled from the spec: the unused-field rule's output — one Warning
violation at the declaration line of each field with zero probable uses,
in declaration order. -/
def unusedFieldViolations (ruleName : String) (c : SorobanContract) : List RuleViolation :=
  c.contract_types.flatMap (fun st =>
    (st.fields.filter (fun f => !(fieldUsed c f.name))).map (fun f =>
      { rule_name := ruleName
        description := "State variable is never read in any contract function: " ++ f.name
        severity := ViolationSeverity.Warning
        line_number := f.line_number
        column_number := 0
        variable_name := f.name
        suggestion := "Remove the unused state variable " ++ f.name }))

/-! ## The rule catalog and evaluation engine (spec section 4.2)

Modelled from the spec: `rule_engine.rs` is not in the snapshot.  A Rule
exposes identifier, display name, default severity, enabled flag and
`apply`; the engine holds an ordered caller-supplied list of rules and
`analyze` first invokes the parser (propagating its failure unchanged),
then runs every enabled rule in registration order, concatenating each
rule's output in production order. -/

/-- A pluggable heuristic check (the Rule capability interface). -/
structure Rule where
  id : String
  name : String
  severity : ViolationSeverity
  enabled : Bool
  apply : SorobanContract → List RuleViolation

/-- The general-purpose engine's unused-state-variables rule
(`UnusedStateVariablesRule`; its violations carry the rule name the
integration tests assert, `unused-state-variables`). -/
def UnusedStateVariablesRule : Rule :=
  { id := "unused-state-variables"
    name := "Unused State Variables"
    severity := ViolationSeverity.Warning
    enabled := true
    apply := unusedFieldViolations "unused-state-variables" }

/-- The Soroban engine's instance of the same rule, with the
chain-specific identifier the tests assert. -/
def sorobanUnusedStateVariablesRule : Rule :=
  { id := "soroban-unused-state-variables"
    name := "Unused State Variables"
    severity := ViolationSeverity.Warning
    enabled := true
    apply := unusedFieldViolations "soroban-unused-state-variables" }

/-- Modelled from the spec: run every enabled rule in registration order,
concatenating outputs in production order (the engine's evaluation loop). -/
def engineRun (rules : List Rule) (c : SorobanContract) : List RuleViolation :=
  rules.foldl (fun acc r => if r.enabled then acc ++ r.apply c else acc) []

/-- Modelled from the spec: `analyze(source, label)` — parse, propagating
failure unchanged, then evaluate the rule catalog. -/
def engineAnalyze (rules : List Rule) (source label : String) :
    Except SorobanParseError (List RuleViolation) :=
  match SorobanParser.parse_contract source label with
  | Except.error e => Except.error e
  | Except.ok c => Except.ok (engineRun rules c)

/-- The Soroban engine's default rule catalog
(`SorobanRuleEngine::with_default_rules`; modelled with the rule the
claims concern — the further chain-specific heuristics of the missing
`rule_engine.rs` are independent rules appended after it). -/
def sorobanDefaultRules : List Rule := [sorobanUnusedStateVariablesRule]

/-- The general-purpose engine as `ContractScanner::new` builds it:
`RuleEngine::new().add_rule(Box::new(UnusedStateVariablesRule))`.  Its
error is surfaced as a string (the scanner wraps it with `anyhow!`). -/
def rustEngineAnalyze (content : String) : Except String (List RuleViolation) :=
  match engineAnalyze [UnusedStateVariablesRule] content "" with
  | Except.ok vs => Except.ok vs
  | Except.error e => Except.error e.display

/-- The Soroban engine entry (`SorobanRuleEngine::analyze(content, source)`);
the scanner formats its failure as `Soroban analysis failed: ...`. -/
def sorobanEngineAnalyze (content source : String) : Except String (List RuleViolation) :=
  match engineAnalyze sorobanDefaultRules content source with
  | Except.ok vs => Except.ok vs
  | Except.error e => Except.error ("Soroban analysis failed: " ++ e.display)

/-- Modelled from the spec: the domain-specific (Vyper) sibling pipeline is
out of scope of the specified core (spec sections 1 and 6); it is modelled
as a total analyzer producing no violations. -/
def vyperEngineAnalyze (_content : String) : Except String (List RuleViolation) :=
  Except.ok []

/-! ## The scanner (from `libs/engine/src/scanner.rs`) -/

/-- Supported languages for scanning (`Language`). -/
inductive Language where
  | Rust : Language
  | Vyper : Language
  | Soroban : Language
deriving DecidableEq, Repr

/-- ASCII-lowercase a string (`str::to_lowercase` for the extensions used). -/
def toLowerStr (s : String) : String := String.mk (s.toList.map Char.toLower)

/-- Detect language from file extension (`Language::from_extension`). -/
def Language.from_extension (ext : String) : Option Language :=
  if toLowerStr ext = "rs" then some Language.Rust
  else if toLowerStr ext = "vy" then some Language.Vyper
  else none

/-- The Soroban content heuristic of `Language::from_content`: the
framework import together with an annotation marker. -/
def sorobanContentMarkers (content : String) : Bool :=
  containsStr content "soroban_sdk" &&
    (containsStr content "#[contract]" || containsStr content "#[contractimpl]" ||
      containsStr content "#[contracttype]")

/-- The Vyper content heuristic of `Language::from_content`. -/
def vyperContentMarkers (content : String) : Bool :=
  containsStr content "# @version" || containsStr content "interface "

/-- The Rust content heuristic of `Language::from_content`. -/
def rustContentMarkers (content : String) : Bool :=
  containsStr content "fn main(" || containsStr content "#[derive("

/-- Detect language from file content heuristics (`Language::from_content`):
Soroban patterns first, then Vyper, then general Rust, else none. -/
def Language.from_content (content : String) : Option Language :=
  if sorobanContentMarkers content then some Language.Soroban
  else if vyperContentMarkers content then some Language.Vyper
  else if rustContentMarkers content then some Language.Rust
  else none

/-- The scanner (`ContractScanner`): its three engines, each modelled as
the function its `analyze` denotes. -/
structure ContractScanner where
  rule_engine : String → Except String (List RuleViolation)
  vyper_rule_engine : String → Except String (List RuleViolation)
  soroban_rule_engine : String → String → Except String (List RuleViolation)

/-- `ContractScanner::new`. -/
def ContractScanner.new : ContractScanner :=
  ⟨rustEngineAnalyze, vyperEngineAnalyze, sorobanEngineAnalyze⟩

/-- A scan's outcome (`ScanResult`; the wall-clock `scan_time` field is
outside the embedding and omitted). -/
structure ScanResult where
  source : String
  violations : List RuleViolation
deriving DecidableEq, Repr

/-- `ScanResult::has_violations`. -/
def ScanResult.has_violations (r : ScanResult) : Bool := !r.violations.isEmpty

/-- `ContractScanner::scan_content_with_language`: resolve the language
(falling back to content detection), dispatch to the engine, and wrap the
violations with the source label. -/
def ContractScanner.scan_content_with_language (s : ContractScanner)
    (content source : String) (language : Option Language) : Except String ScanResult :=
  let detected := match language with
    | some l => some l
    | none => Language.from_content content
  let vres := match detected with
    | some Language.Rust => s.rule_engine content
    | some Language.Vyper => s.vyper_rule_engine content
    | some Language.Soroban => s.soroban_rule_engine content source
    | none =>
      if containsStr content "soroban_sdk" then s.soroban_rule_engine content source
      else s.rule_engine content
  match vres with
  | Except.error e => Except.error e
  | Except.ok vs => Except.ok ⟨source, vs⟩

/-- `ContractScanner::scan_content`: defaults the language to Rust for
backward compatibility, without inspecting the content. -/
def ContractScanner.scan_content (s : ContractScanner) (content source : String) :
    Except String ScanResult :=
  s.scan_content_with_language content source (some Language.Rust)

/-- `ContractScanner::scan_file`: the file read (an IO effect) is passed in
as its outcome; the language comes from the extension alone. -/
def ContractScanner.scan_file (s : ContractScanner) (path ext : String)
    (read : Except String String) : Except String ScanResult :=
  match read with
  | Except.error e => Except.error e
  | Except.ok content => s.scan_content_with_language content path (Language.from_extension ext)

/-- `ContractScanner::scan_soroban_content`. -/
def ContractScanner.scan_soroban_content (s : ContractScanner) (content source : String) :
    Except String ScanResult :=
  match s.soroban_rule_engine content source with
  | Except.error e => Except.error e
  | Except.ok vs => Except.ok ⟨source, vs⟩

/-- `ContractScanner::scan_vyper_content`. -/
def ContractScanner.scan_vyper_content (s : ContractScanner) (content source : String) :
    Except String ScanResult :=
  match s.vyper_rule_engine content with
  | Except.error e => Except.error e
  | Except.ok vs => Except.ok ⟨source, vs⟩

/-- A directory entry as the walk delivers it: path, extension, and the
outcome of reading the file (IO modelled by its result). -/
structure DirEntry where
  path : String
  ext : String
  read : Except String String

/-- The extension filter of `scan_directory` (`rs` and `vy` files). -/
def relevantExt (e : String) : Bool := e = "rs" || e = "vy"

/-- `ContractScanner::scan_directory`: filter by extension, read each file
(`?` propagates a read failure), detect the language from content first,
dispatch, propagate an analysis failure (`?` again), and keep only results
with violations. -/
def ContractScanner.scan_directory (s : ContractScanner) :
    List DirEntry → Except String (List ScanResult)
  | [] => Except.ok []
  | entry :: rest =>
    if relevantExt entry.ext then
      match entry.read with
      | Except.error e => Except.error e
      | Except.ok content =>
        let language := match Language.from_content content with
          | some l => some l
          | none => Language.from_extension entry.ext
        let res := match language with
          | some Language.Soroban => s.scan_soroban_content content entry.path
          | some Language.Vyper => s.scan_vyper_content content entry.path
          | _ => s.scan_content_with_language content entry.path language
        match res with
        | Except.error e => Except.error e
        | Except.ok r =>
          match s.scan_directory rest with
          | Except.error e => Except.error e
          | Except.ok rs => Except.ok (if r.violations.isEmpty then rs else r :: rs)
    else s.scan_directory rest

/-! ## Concrete inputs (the integration tests' contract sources) -/

/-- The three-field contract of `test_unused_state_variables_detection`:
`used_var` is read in a getter, `another_used` written in a setter,
`unused_var` appears only as a (non-shorthand) initializer key. -/
def testUnusedContract : String := nlJoin [
  "",
  "use soroban_sdk::\x7bcontract, contractimpl, contracttype, Address, Env\x7d;",
  "",
  "#[contracttype]",
  "pub struct TestContract \x7b",
  "    pub used_var: u64,",
  "    pub unused_var: String,",
  "    pub another_used: bool,",
  "\x7d",
  "",
  "#[contractimpl]",
  "impl TestContract \x7b",
  "    pub fn new() -> Self \x7b",
  "        Self \x7b",
  "            used_var: 42,",
  "            another_used: true,",
  "            unused_var: \"never_used\".to_string(),",
  "        \x7d",
  "    \x7d",
  "",
  "    pub fn get_used_var(&self) -> u64 \x7b",
  "        self.used_var",
  "    \x7d",
  "",
  "    pub fn set_another_used(&mut self, value: bool) \x7b",
  "        self.another_used = value;",
  "    \x7d",
  "\x7d",
  ""]

/-- The five-field contract of `test_multiple_unused_variables`: three
fields are never referenced in any function body. -/
def testWastefulContract : String := nlJoin [
  "",
  "use soroban_sdk::\x7bcontract, contractimpl, contracttype, Address, Env\x7d;",
  "",
  "#[contracttype]",
  "pub struct WastefulContract \x7b",
  "    pub used_var: u64,",
  "    pub unused1: String,",
  "    pub unused2: bool,",
  "    pub unused3: Address,",
  "    pub also_used: u32,",
  "\x7d",
  "",
  "#[contractimpl]",
  "impl WastefulContract \x7b",
  "    pub fn new() -> Self \x7b",
  "        Self \x7b",
  "            used_var: 42,",
  "            also_used: 100,",
  "            unused1: \"unused\".to_string(),",
  "            unused2: false,",
  "            unused3: Address::generate(&Env::default()),",
  "        \x7d",
  "    \x7d",
  "",
  "    pub fn get_used_var(&self) -> u64 \x7b",
  "        self.used_var",
  "    \x7d",
  "",
  "    pub fn get_also_used(&self) -> u32 \x7b",
  "        self.also_used",
  "    \x7d",
  "\x7d",
  ""]

/-- The fully-used contract of `test_optimized_contract_no_violations`:
`counter` is read and written through `self`, `owner` is a shorthand
initializer key and read in a getter. -/
def optimizedContract : String := nlJoin [
  "",
  "use soroban_sdk::\x7bcontract, contractimpl, contracttype, Address, Env\x7d;",
  "",
  "#[contracttype]",
  "pub struct OptimizedContract \x7b",
  "    pub counter: u64,",
  "    pub owner: Address,",
  "\x7d",
  "",
  "#[contractimpl]",
  "impl OptimizedContract \x7b",
  "    pub fn new(owner: Address) -> Self \x7b",
  "        Self \x7b",
  "            counter: 0,",
  "            owner,",
  "        \x7d",
  "    \x7d",
  "",
  "    pub fn increment(&mut self) \x7b",
  "        self.counter += 1;",
  "    \x7d",
  "",
  "    pub fn get_owner(&self) -> &Address \x7b",
  "        &self.owner",
  "    \x7d",
  "\x7d",
  ""]

/-- The marker-less source of `test_soroban_parse_error_handling`. -/
def invalidSource : String := nlJoin [
  "",
  "struct Test \x7b",
  "    field: u64,",
  "\x7d",
  ""]

/-- A source whose annotation-marked struct's brace block never balances. -/
def unterminatedSource : String := nlJoin [
  "#[contracttype]",
  "pub struct Broken \x7b",
  "    pub a: u64,"]

/-- A source that is a single open brace: open nesting, but no
annotation-marked type declaration. -/
def braceOnlySource : String := "\x7b"

/-- Project the variable names out of a scan outcome (for concrete
statements; an error is kept as the single entry of the error case). -/
def scanNames (res : Except String ScanResult) : List String :=
  match res with
  | Except.ok r => r.violations.map (fun v => v.variable_name)
  | Except.error e => ["scan error: " ++ e]

/-! ## Lemmas about the bracket-depth helpers -/

theorem bracketDeltaList_cons (c : Char) (l : List Char) :
    bracketDeltaList (c :: l) = bracketDelta c + bracketDeltaList l := by
  simp [bracketDeltaList]

theorem bracketDeltaList_nil : bracketDeltaList [] = 0 := rfl

theorem bracketDeltaList_append (xs ys : List Char) :
    bracketDeltaList (xs ++ ys) = bracketDeltaList xs + bracketDeltaList ys := by
  simp [bracketDeltaList]

theorem bracketDeltaList_reverse (l : List Char) :
    bracketDeltaList l.reverse = bracketDeltaList l := by
  simp [bracketDeltaList, List.sum_reverse]

theorem splitPreservingAux_ne_nil (delim : Char) (text : List Char) (d : Int) (acc : List Char) :
    splitPreservingAux delim text d acc ≠ [] := by
  cases text with
  | nil => simp [splitPreservingAux]
  | cons c cs =>
    simp only [splitPreservingAux]
    split
    · simp
    · exact splitPreservingAux_ne_nil delim cs _ _

theorem joinWith_cons (sep : Char) (x : List Char) (ys : List (List Char)) (h : ys ≠ []) :
    joinWith sep (x :: ys) = x ++ sep :: joinWith sep ys := by
  cases ys with
  | nil => exact absurd rfl h
  | cons y t => rfl

theorem dropLast_cons_of_ne_nil {α : Type} (x : α) (ys : List α) (h : ys ≠ []) :
    (x :: ys).dropLast = x :: ys.dropLast := by
  cases ys with
  | nil => exact absurd rfl h
  | cons y t => rfl

/-- The splitter's invariant: with `d` the bracket depth of the accumulated
part, the parts reassemble to the remaining input and every part closed by
a split has net bracket depth zero. -/
theorem splitPreservingAux_spec (delim : Char) :
    ∀ (text : List Char) (d : Int) (acc : List Char), d = bracketDeltaList acc →
      joinWith delim (splitPreservingAux delim text d acc) = acc.reverse ++ text ∧
      ∀ part ∈ (splitPreservingAux delim text d acc).dropLast, bracketDeltaList part = 0 := by
  intro text
  induction text with
  | nil =>
    intro d acc _
    constructor
    · simp [splitPreservingAux, joinWith]
    · intro part hp
      simp [splitPreservingAux] at hp
  | cons c cs ih =>
    intro d acc hd
    simp only [splitPreservingAux]
    split
    · next hcond =>
      have hc : c = delim := by
        have := hcond
        simp [Bool.and_eq_true, decide_eq_true_eq] at this
        exact this.1
      have hd0 : d = 0 := by
        have := hcond
        simp [Bool.and_eq_true, decide_eq_true_eq] at this
        exact this.2
      have hne := splitPreservingAux_ne_nil delim cs 0 []
      have hih := ih 0 [] (by simp [bracketDeltaList])
      constructor
      · rw [joinWith_cons delim acc.reverse _ hne, hih.1]
        simp [hc]
      · intro part hp
        rw [dropLast_cons_of_ne_nil _ _ hne] at hp
        rcases List.mem_cons.mp hp with hp2 | hp2
        · subst hp2
          rw [bracketDeltaList_reverse, ← hd, hd0]
        · exact hih.2 part hp2
    · next _ =>
      have hih := ih (d + bracketDelta c) (c :: acc) (by
        rw [bracketDeltaList_cons, hd]; ring)
      constructor
      · rw [hih.1]
        simp
      · exact hih.2

theorem findOpenParen_none_of_not_mem :
    ∀ text : List Char, '(' ∉ text → findOpenParen text = none := by
  intro text h
  induction text with
  | nil => rfl
  | cons c cs ih =>
    simp only [findOpenParen]
    have hc : ¬ c = '(' := fun hc => h (hc ▸ List.mem_cons_self c cs)
    rw [if_neg (fun hc2 => hc hc2)]
    exact ih (fun hm => h (List.mem_cons_of_mem c hm))

theorem findOpenParen_spec :
    ∀ (text rest : List Char), findOpenParen text = some rest →
      ∃ pre, text = pre ++ '(' :: rest ∧ '(' ∉ pre := by
  intro text
  induction text with
  | nil => intro rest h; simp [findOpenParen] at h
  | cons c cs ih =>
    intro rest h
    simp only [findOpenParen] at h
    by_cases hc : c = '('
    · rw [if_pos hc] at h
      refine ⟨[], ?_, by simp⟩
      simp [hc, Option.some_inj.mp h]
    · rw [if_neg hc] at h
      obtain ⟨pre, hpre, hmem⟩ := ih rest h
      refine ⟨c :: pre, by simp [hpre], ?_⟩
      intro hm
      rcases List.mem_cons.mp hm with hm | hm
      · exact hc hm.symm
      · exact hmem hm

/-- The extraction scan's invariant: a successful extraction consumed text
whose bracket deltas bring the depth from `d` down to exactly 1 at the
closing parenthesis. -/
theorem extractAux_spec :
    ∀ (rest : List Char) (d : Int) (acc s : List Char), 1 ≤ d →
      d = 1 + bracketDeltaList acc → extractAux d acc rest = some s →
      ∃ consumed post, rest = consumed ++ ')' :: post ∧
        s = acc.reverse ++ consumed ∧ d + bracketDeltaList consumed = 1 := by
  intro rest
  induction rest with
  | nil => intro d acc s _ _ h; simp [extractAux] at h
  | cons c cs ih =>
    intro d acc s hge hacc h
    simp only [extractAux] at h
    by_cases hle : d + bracketDelta c ≤ 0
    · rw [if_pos hle] at h
      by_cases hc : c = ')'
      · rw [if_pos hc] at h
        have hs : s = acc.reverse := (Option.some_inj.mp h).symm
        have hdelta : bracketDelta c = -1 := by
          simp [bracketDelta, hc]
        have hd1 : d = 1 := by omega
        refine ⟨[], cs, by simp [hc], by simp [hs], by simp [bracketDeltaList, hd1]⟩
      · rw [if_neg hc] at h
        exact absurd h (by simp)
    · rw [if_neg hle] at h
      have hge2 : 1 ≤ d + bracketDelta c := by omega
      have hacc2 : d + bracketDelta c = 1 + bracketDeltaList (c :: acc) := by
        rw [bracketDeltaList_cons, hacc]; ring
      obtain ⟨consumed, post, hrest, hs, hsum⟩ := ih (d + bracketDelta c) (c :: acc) s hge2 hacc2 h
      refine ⟨c :: consumed, post, by simp [hrest], ?_, ?_⟩
      · simp only [hs, List.reverse_cons, List.append_assoc]
        simp
      · rw [bracketDeltaList_cons]
        omega

/-! ## The claims -/

/-- C4: for every input text and delimiter, split_preserving_parentheses
splits only at positions where bracket depth (parentheses, square and
angle brackets tracked together) is zero — the parts reassemble to the
input, and every part closed by a split (every part but the last) has net
bracket depth zero, so no split point lies inside a nested bracket group —
and the parameter list `param1: u64, param2: (u32, String)` yields exactly
the two entries `param1: u64` and `param2: (u32, String)`. -/
theorem claim_C4_split_preserving_parentheses :
    (∀ (delim : Char) (text : List Char),
      joinWith delim (splitPreservingAux delim text 0 []) = text ∧
      ∀ part ∈ (splitPreservingAux delim text 0 []).dropLast, bracketDeltaList part = 0)
    ∧ SorobanParser.split_preserving_parentheses "param1: u64, param2: (u32, String)" ',' =
        ["param1: u64", "param2: (u32, String)"] := by
  constructor
  · intro delim text
    have h := splitPreservingAux_spec delim text 0 [] (by simp [bracketDeltaList])
    exact ⟨by simpa using h.1, h.2⟩
  · rfl

/-- C5: extract_between_parentheses returns the substring between the
first `(` and its balanced `)` (the input decomposes as
`pre ++ '(' :: s ++ ')' :: post` with no `(` before and `s` of net bracket
depth zero), and returns none when no opening parenthesis exists and when
the brackets never balance (concretely, on `f(a(b)`). -/
theorem claim_C5_extract_between_parentheses :
    (∀ text : List Char, '(' ∉ text → extractBetweenChars text = none)
    ∧ (∀ (text s : List Char), extractBetweenChars text = some s →
        ∃ pre post, text = pre ++ '(' :: (s ++ ')' :: post) ∧ '(' ∉ pre ∧
          bracketDeltaList s = 0)
    ∧ SorobanParser.extract_between_parentheses "fn test(param1: u64, param2: String)" =
        some "param1: u64, param2: String"
    ∧ SorobanParser.extract_between_parentheses "no parens here" = none
    ∧ SorobanParser.extract_between_parentheses "f(a(b)" = none := by
  refine ⟨?_, ?_, rfl, rfl, rfl⟩
  · intro text h
    unfold extractBetweenChars
    rw [findOpenParen_none_of_not_mem text h]
  · intro text s h
    unfold extractBetweenChars at h
    cases hfo : findOpenParen text with
    | none => rw [hfo] at h; exact absurd h (by simp)
    | some rest =>
      rw [hfo] at h
      obtain ⟨pre, hpre, hmem⟩ := findOpenParen_spec text rest hfo
      obtain ⟨consumed, post, hrest, hs, hsum⟩ :=
        extractAux_spec rest 1 [] s (le_refl 1) (by simp [bracketDeltaList]) h
      have hs2 : s = consumed := by simpa using hs
      refine ⟨pre, post, ?_, hmem, ?_⟩
      · rw [hpre, hrest, hs2]
      · rw [hs2]; omega

/-- The Soroban snippet of `test_language_detection_heuristics`. -/
def sorobanSnippet : String := nlJoin [
  "",
  "use soroban_sdk::\x7bcontract, contractimpl, contracttype\x7d;",
  "#[contracttype]",
  "pub struct Test \x7b\x7d",
  "#[contractimpl]",
  "impl Test \x7b\x7d",
  ""]

/-- The Vyper snippet of `test_language_detection_heuristics`. -/
def vyperSnippet : String := nlJoin [
  "",
  "# @version ^0.3.0",
  "interface Token:",
  "    def transfer(_to: address, _value: uint256): nonpayable",
  ""]

/-- The Rust snippet of `test_language_detection_heuristics`. -/
def rustSnippet : String := nlJoin [
  "",
  "fn main() \x7b",
  "    println!(\"Hello, world!\");",
  "\x7d",
  ""]

/-- C2: for every source text that contains no annotation-marked type
declaration, parse returns the MissingMacro failure, whose message
identifies the undeterminable contract name, rather than constructing a
contract; concretely so for the repository test's marker-less source. -/
theorem claim_C2_missing_declaration_macro :
    (∀ source file_path : String, hasMarkedTypeDecl (strLines source) = false →
      SorobanParser.parse_contract source file_path =
        Except.error (SorobanParseError.MissingMacro missingMacroMsg))
    ∧ containsStr missingMacroMsg "contract name" = true
    ∧ hasMarkedTypeDecl (strLines invalidSource) = false
    ∧ SorobanParser.parse_contract invalidSource "invalid.rs" =
        Except.error (SorobanParseError.MissingMacro missingMacroMsg) := by
  refine ⟨?_, rfl, rfl, rfl⟩
  intro source fp h
  unfold SorobanParser.parse_contract
  rw [h]
  simp

/-- C7: content-based language detection applies its markers in fixed
precedence order — the Soroban framework import plus annotation marker
first, then the Vyper version/interface markers, then the generic Rust
idioms — returning the first matching style and none when no style
matches; concretely so on the three snippets of the repository's
language-detection test. -/
theorem claim_C7_language_detection_precedence :
    (∀ content : String, sorobanContentMarkers content = true →
      Language.from_content content = some Language.Soroban)
    ∧ (∀ content : String, sorobanContentMarkers content = false →
        vyperContentMarkers content = true →
        Language.from_content content = some Language.Vyper)
    ∧ (∀ content : String, sorobanContentMarkers content = false →
        vyperContentMarkers content = false → rustContentMarkers content = true →
        Language.from_content content = some Language.Rust)
    ∧ (∀ content : String, sorobanContentMarkers content = false →
        vyperContentMarkers content = false → rustContentMarkers content = false →
        Language.from_content content = none)
    ∧ Language.from_content sorobanSnippet = some Language.Soroban
    ∧ Language.from_content vyperSnippet = some Language.Vyper
    ∧ Language.from_content rustSnippet = some Language.Rust
    ∧ Language.from_content "plain text" = none := by
  refine ⟨?_, ?_, ?_, ?_, rfl, rfl, rfl, rfl⟩ <;>
    intro content <;> intros <;> simp [Language.from_content, *]

/-- The engine's evaluation loop unrolled: the fold over the rule list
appends, to the accumulator, the enabled rules' outputs in registration
order. -/
theorem engineRun_foldl (c : SorobanContract) :
    ∀ (rules : List Rule) (acc : List RuleViolation),
      rules.foldl (fun acc r => if r.enabled then acc ++ r.apply c else acc) acc =
        acc ++ (rules.filter (fun r => r.enabled)).flatMap (fun r => r.apply c) := by
  intro rules
  induction rules with
  | nil => intro acc; simp
  | cons r rs ih =>
    intro acc
    simp only [List.foldl_cons, List.filter_cons]
    by_cases hr : r.enabled
    · rw [if_pos hr, ih]
      simp [hr]
    · rw [if_neg hr, ih]
      simp [hr]

/-- C6: for a fixed source text, label and rule list, the produced
violation sequence is a deterministic pure function of the input — the
embedding of `scan_content_with_language` and `analyze` is a function, so
repeated calls agree — and the engine runs exactly the enabled rules in
registration order, concatenating their outputs in production order, with
the parse failure propagated unchanged. -/
theorem claim_C6_analyze_deterministic :
    (∀ (s : ContractScanner) (content source : String) (language : Option Language),
      s.scan_content_with_language content source language =
        s.scan_content_with_language content source language)
    ∧ (∀ (rules : List Rule) (source label : String),
        engineAnalyze rules source label = engineAnalyze rules source label)
    ∧ (∀ (rules : List Rule) (c : SorobanContract),
        engineRun rules c =
          (rules.filter (fun r => r.enabled)).flatMap (fun r => r.apply c))
    ∧ (∀ (rules : List Rule) (source label : String),
        engineAnalyze rules source label =
          (SorobanParser.parse_contract source label).map (engineRun rules)) := by
  refine ⟨fun _ _ _ _ => rfl, fun _ _ _ => rfl, ?_, ?_⟩
  · intro rules c
    have h := engineRun_foldl c rules []
    simpa [engineRun] using h
  · intro rules source label
    unfold engineAnalyze
    cases SorobanParser.parse_contract source label <;> simp [Except.map]

/-- C9: the two-argument scan_content entry point and scan_file on an `rs`
file never select the Soroban pipeline — scan_content unconditionally
defaults to Rust without inspecting the content, from_extension maps `rs`
to Rust and no extension to Soroban, so both entry points analyze with the
general-purpose Rust engine even for content carrying soroban_sdk and
annotation markers, as the concrete Soroban-marked test contract shows. -/
theorem claim_C9_default_entry_points_use_rust_rules :
    (∀ (s : ContractScanner) (content source : String),
      s.scan_content content source =
        (s.rule_engine content).map (fun vs => ScanResult.mk source vs))
    ∧ Language.from_extension "rs" = some Language.Rust
    ∧ (∀ ext : String, Language.from_extension ext ≠ some Language.Soroban)
    ∧ (∀ (s : ContractScanner) (path : String) (read : Except String String),
        s.scan_file path "rs" read =
          match read with
          | Except.ok content => (s.rule_engine content).map (fun vs => ScanResult.mk path vs)
          | Except.error e => Except.error e)
    ∧ sorobanContentMarkers testUnusedContract = true
    ∧ (match ContractScanner.new.scan_content testUnusedContract "test_contract.rs" with
        | Except.ok r => r.violations.map (fun v => v.rule_name)
        | Except.error e => [e]) = ["unused-state-variables"] := by
  refine ⟨?_, rfl, ?_, ?_, rfl, rfl⟩
  · intro s content source
    cases h : s.rule_engine content <;>
      simp [ContractScanner.scan_content, ContractScanner.scan_content_with_language,
        Except.map, h]
  · intro ext
    unfold Language.from_extension
    split
    · simp
    · split <;> simp
  · intro s path read
    cases read with
    | error e => rfl
    | ok content =>
      cases h : s.rule_engine content <;>
        simp [ContractScanner.scan_file, ContractScanner.scan_content_with_language,
          Language.from_extension, Except.map, h, toLowerStr]

/-- C3 counterexample: a two-file batch whose first file fails to read.
`scan_directory` aborts with that error — the `?` on the file read
propagates it — so the batch returns no results at all, although the very
same second file scanned alone yields a result with a violation.  The
claimed skip-and-continue behavior is refuted. -/
theorem claim_C3_counterexample :
    ContractScanner.new.scan_directory
      [⟨"bad.rs", "rs", Except.error "Failed to read file: bad.rs"⟩,
       ⟨"good.rs", "rs", Except.ok testUnusedContract⟩] =
      Except.error "Failed to read file: bad.rs"
    ∧ (match ContractScanner.new.scan_directory
          [⟨"good.rs", "rs", Except.ok testUnusedContract⟩] with
        | Except.ok rs => rs.map (fun r => (r.source, r.violations.map (fun v => v.variable_name)))
        | Except.error e => [(e, [])]) =
      [("good.rs", ["unused_var"])] := ⟨rfl, rfl⟩

/-- C3 amended: a single file's read failure aborts the directory batch —
`scan_directory` propagates the first relevant entry's read error
unchanged, whatever files remain, so the remaining files contribute no
results; a batch without such a failure is scanned (the concrete
single-file batch yields its result). -/
theorem claim_C3_scan_directory_aborts_on_failure :
    (∀ (s : ContractScanner) (path msg : String) (rest : List DirEntry),
      s.scan_directory (⟨path, "rs", Except.error msg⟩ :: rest) = Except.error msg)
    ∧ (match ContractScanner.new.scan_directory
          [⟨"good.rs", "rs", Except.ok testUnusedContract⟩] with
        | Except.ok rs => rs.map (fun r => r.source)
        | Except.error e => [e]) = ["good.rs"] := by
  refine ⟨?_, rfl⟩
  intro s path msg rest
  rfl

/-- C8 counterexample: the source consisting of a single opening brace has
open brace nesting at end of input, yet parse returns the MissingMacro
failure (there is no annotation-marked type declaration to name the
contract), not the MalformedStructure/InvalidStructure failure the claim
requires of every open-nested input. -/
theorem claim_C8_counterexample :
    braceDeltaList braceOnlySource.toList = 1
    ∧ SorobanParser.parse_contract braceOnlySource "file.rs" =
        Except.error (SorobanParseError.MissingMacro missingMacroMsg)
    ∧ (match SorobanParser.parse_contract braceOnlySource "file.rs" with
        | Except.error (SorobanParseError.InvalidStructure _) => true
        | _ => false) = false := ⟨rfl, rfl, rfl⟩

/-- C8 amended: parse is a bounded scan — a total, structurally recursive
function of the line list, so it terminates on every input — and for every
input that holds an annotation-marked type declaration and whose forward
scan is still inside a marker-opened block at end of input, it returns the
InvalidStructure (MalformedStructure) failure; an open-nested input with
no marked type declaration instead fails earlier with MissingMacro, as
the counterexample shows. -/
theorem claim_C8_unterminated_is_invalid_structure :
    (∀ source file_path : String, hasMarkedTypeDecl (strLines source) = true →
      scanIsUnterminated (numberedLines source) = true →
      SorobanParser.parse_contract source file_path =
        Except.error (SorobanParseError.InvalidStructure unterminatedMsg))
    ∧ hasMarkedTypeDecl (strLines unterminatedSource) = true
    ∧ scanIsUnterminated (numberedLines unterminatedSource) = true
    ∧ SorobanParser.parse_contract unterminatedSource "broken.rs" =
        Except.error (SorobanParseError.InvalidStructure unterminatedMsg) := by
  refine ⟨?_, rfl, rfl, rfl⟩
  intro source fp h1 h2
  unfold SorobanParser.parse_contract
  rw [h1]
  simp only [if_true]
  unfold structScan
  unfold scanIsUnterminated at h2
  cases hm : (runScan (numberedLines source)).mode <;> rw [hm] at h2 <;>
    simp_all

/-- C10: scan_directory returns a result only for files with at least one
violation — every entry of a successful batch has a nonempty violation
list — and a file that parses cleanly with zero violations contributes no
entry at all: its batch output equals that of a directory that was never
scanned. -/
theorem scanDirTail (s : ContractScanner) (rest : List DirEntry)
    (res0 : Except String ScanResult) (results : List ScanResult)
    (ih : ∀ results2, s.scan_directory rest = Except.ok results2 →
      ∀ r ∈ results2, r.violations ≠ [])
    (h : (match res0 with
          | Except.error e => Except.error e
          | Except.ok r2 =>
            match s.scan_directory rest with
            | Except.error e => Except.error e
            | Except.ok rs => Except.ok (if r2.violations.isEmpty then rs else r2 :: rs)) =
        Except.ok results) :
    ∀ r ∈ results, r.violations ≠ [] := by
  cases res0 with
  | error e => simp at h
  | ok r2 =>
    cases hd : s.scan_directory rest with
    | error e => rw [hd] at h; simp at h
    | ok rs =>
      rw [hd] at h
      have hres : (if r2.violations.isEmpty then rs else r2 :: rs) = results := by
        injection h
      intro r hr
      by_cases hv : r2.violations.isEmpty
      · rw [if_pos hv] at hres
        subst hres
        exact ih rs hd r hr
      · rw [if_neg hv] at hres
        subst hres
        rcases List.mem_cons.mp hr with hr2 | hr2
        · subst hr2
          intro hnil
          rw [hnil] at hv
          simp at hv
        · exact ih rs hd r hr2

theorem claim_C10_only_violating_files_reported :
    (∀ (s : ContractScanner) (entries : List DirEntry) (results : List ScanResult),
      s.scan_directory entries = Except.ok results → ∀ r ∈ results, r.violations ≠ [])
    ∧ ContractScanner.new.scan_directory [⟨"clean.rs", "rs", Except.ok optimizedContract⟩] =
        Except.ok []
    ∧ ContractScanner.new.scan_directory [] = Except.ok [] := by
  refine ⟨?_, rfl, rfl⟩
  intro s entries
  induction entries with
  | nil =>
    intro results h r hr
    simp only [ContractScanner.scan_directory] at h
    cases h
    simp at hr
  | cons entry rest ih =>
    intro results h r hr
    rw [ContractScanner.scan_directory] at h
    split at h
    · cases hread : entry.read with
      | error e => rw [hread] at h; simp at h
      | ok content =>
        rw [hread] at h
        exact scanDirTail s rest _ results ih h r hr
    · exact ih results h r hr

/-- C1: the unused-field rule emits one Warning violation for each field
with no probable access in any function body of any implementation block
and none for an accessed field — every emitted violation is a Warning of
the rule naming a field the contract never accesses, and the emitted
variable names are exactly the unaccessed fields' names in declaration
order — and end to end, the three-field test contract (getter-read,
setter-written and never-referenced fields) yields exactly one violation
naming unused_var, while the five-field contract with three
never-referenced fields yields exactly the three violations naming
unused1, unused2 and unused3. -/
theorem claim_C1_unused_field_rule :
    (∀ (c : SorobanContract) (v : RuleViolation), v ∈ UnusedStateVariablesRule.apply c →
      v.severity = ViolationSeverity.Warning ∧ v.rule_name = "unused-state-variables" ∧
      fieldUsed c v.variable_name = false)
    ∧ (∀ c : SorobanContract,
        (UnusedStateVariablesRule.apply c).map (fun v => v.variable_name) =
          c.contract_types.flatMap (fun st =>
            (st.fields.filter (fun f => !(fieldUsed c f.name))).map (fun f => f.name)))
    ∧ scanNames (ContractScanner.new.scan_content testUnusedContract "test_contract.rs") =
        ["unused_var"]
    ∧ (match ContractScanner.new.scan_content testUnusedContract "test_contract.rs" with
        | Except.ok r => r.violations.map (fun v => v.rule_name)
        | Except.error e => [e]) = ["unused-state-variables"]
    ∧ scanNames (ContractScanner.new.scan_content testWastefulContract "wasteful_contract.rs") =
        ["unused1", "unused2", "unused3"] := by
  refine ⟨?_, ?_, rfl, rfl, rfl⟩
  · intro c v hv
    simp only [UnusedStateVariablesRule, unusedFieldViolations, List.mem_flatMap,
      List.mem_map, List.mem_filter] at hv
    obtain ⟨st, _, f, ⟨_, hunused⟩, hveq⟩ := hv
    subst hveq
    refine ⟨rfl, rfl, ?_⟩
    simpa using hunused
  · intro c
    simp only [UnusedStateVariablesRule, unusedFieldViolations, List.map_flatMap,
      List.map_map]
    rfl

end GasGuard
